import Mathlib

/-!
Verification development for the jobs.tut.by crawler (src/crawler.py).

The embedding models the crawl and parse task engine of the Crawler class:
the work queue, the deduplication guard over md5 fingerprints, the URL
pattern to handler dispatch, and the five handlers (level1, level2,
pagination, vacancies_list, extractor).

Modelling conventions:
  - Strings are lists of characters (Str).  Python str.split, str.join and
    str.strip are modelled directly (pysplit, pyjoin, pystrip).
  - Regular expressions are embedded as a small regex language with a
    Brzozowski-derivative matcher; re.fullmatch is rmatch (whole string) and
    re.match is rmatchPrefix (match at the start).  The end anchor in a
    pattern is vacuous under fullmatch and is embedded as epsilon.
  - The md5 fingerprint and urllib.parse.urljoin are external capabilities;
    every definition is parameterised over them (fp and uj).  Concrete
    evaluations instantiate them with simple injective functions.
  - lxml document trees are external; a parsed document is embedded as a
    record (Doc) holding the results of exactly the xpath queries the
    handlers perform.  A task carries the parsed tree of its body directly.
  - Python dicts are mutable and aliased by reference; the per-task context
    dict is modelled by a heap (a list of dict contents indexed by Nat
    references).  The only key ever used is the category key, so a dict is
    Option Str: none is the empty dict, some s binds category to s.
  - A handler that raises is modelled by returning some exception next to
    the state mutated so far, exactly at the point the source raises.
  - Logging is ignored (it only writes when verbose is set).
-/

namespace Crawler

/-- Strings of the model: lists of characters. -/
abbrev Str := List Char

/-- Python default whitespace characters for str.strip (ASCII range). -/
def pyIsSpace (c : Char) : Bool :=
  c == ' ' || c == '\t' || c == '\n' || c == '\r' || c == '\x0b' || c == '\x0c'

/-- Python str.strip with no argument: drop whitespace from both ends. -/
def pystrip (s : Str) : Str :=
  ((s.dropWhile pyIsSpace).reverse.dropWhile pyIsSpace).reverse

/-- Python sep.join(xs): interleave the separator between the pieces. -/
def pyjoin (sep : Str) : List Str → Str
  | [] => []
  | [x] => x
  | x :: y :: rest => x ++ sep ++ pyjoin sep (y :: rest)

set_option linter.unusedVariables false in
/-- Python s.split(sep) for a non-empty separator: scan left to right,
cutting at each non-overlapping occurrence of sep.  The empty string splits
to one empty piece. -/
def pysplit (sep s : Str) : List Str :=
  match s with
  | [] => [[]]
  | c :: rest =>
    if h : sep ≠ [] ∧ sep.isPrefixOf (c :: rest) then
      [] :: pysplit sep ((c :: rest).drop sep.length)
    else
      match pysplit sep rest with
      | [] => [[c]]
      | p :: ps => (c :: p) :: ps
termination_by s.length
decreasing_by
  · simp only [List.length_drop, List.length_cons]
    have hsep : 1 ≤ sep.length := by
      cases sep with
      | nil => exact absurd rfl h.1
      | cons a as => simp
    omega
  · simp

/-- The category separator " ->>> " used by join_cats. -/
def sepCats : Str := " ->>> ".data

/-- Model of Crawler.join_cats.  The source tests truthiness of the two
arguments (None and the empty string are both falsy and behave identically
through this function, so a missing category is passed as the empty
string), and in the both-non-empty branch evaluates
" ->>> ".join(cat1.split(" ->>> ") + cat2.split(" ->>> ")). -/
def join_cats (cat1 cat2 : Str) : Str :=
  if cat1 ≠ [] ∧ cat2 ≠ [] then
    pyjoin sepCats (pysplit sepCats cat1 ++ pysplit sepCats cat2)
  else if cat1 ≠ [] then cat1
  else if cat2 ≠ [] then cat2
  else []

/-! Regular expressions with Brzozowski derivatives.  pred carries a
character predicate, covering literals, the dot, and character classes. -/

inductive Regex where
  | emp : Regex
  | eps : Regex
  | pred : (Char → Bool) → Regex
  | seq : Regex → Regex → Regex
  | alt : Regex → Regex → Regex
  | star : Regex → Regex

/-- Does the regex accept the empty string. -/
def Regex.nullable : Regex → Bool
  | .emp => false
  | .eps => true
  | .pred _ => false
  | .seq a b => a.nullable && b.nullable
  | .alt a b => a.nullable || b.nullable
  | .star _ => true

/-- Sequencing smart constructor (keeps derivatives small). -/
def Regex.rseq : Regex → Regex → Regex
  | .emp, _ => .emp
  | _, .emp => .emp
  | .eps, r => r
  | r, .eps => r
  | a, b => .seq a b

/-- Alternation smart constructor (keeps derivatives small). -/
def Regex.ralt : Regex → Regex → Regex
  | .emp, r => r
  | r, .emp => r
  | a, b => .alt a b

/-- Brzozowski derivative of a regex by one character. -/
def Regex.deriv (c : Char) : Regex → Regex
  | .emp => .emp
  | .eps => .emp
  | .pred p => if p c then .eps else .emp
  | .seq a b =>
    if a.nullable then .ralt (.rseq (a.deriv c) b) (b.deriv c)
    else .rseq (a.deriv c) b
  | .alt a b => .ralt (a.deriv c) (b.deriv c)
  | .star r => .rseq (r.deriv c) (.star r)

/-- Model of re.fullmatch: the whole string is consumed. -/
def rmatch (r : Regex) (s : Str) : Bool :=
  (s.foldl (fun r c => r.deriv c) r).nullable

/-- Model of re.match: some prefix of the string (possibly empty) matches,
anchored at the start. -/
def rmatchPrefix : Regex → Str → Bool
  | r, [] => r.nullable
  | r, c :: rest => r.nullable || rmatchPrefix (r.deriv c) rest

/-- Concatenation of a list of regexes. -/
def rcat : List Regex → Regex
  | [] => .eps
  | r :: rs => Regex.seq r (rcat rs)

/-- Literal character regex. -/
def rchar (c : Char) : Regex := .pred (fun x => x == c)

/-- Literal string regex. -/
def rlit (s : Str) : Regex := rcat (s.map rchar)

/-- The regex dot: any character except a newline. -/
def rdot : Regex := .pred (fun c => c != '\n')

/-- Word characters for the character class w (ASCII range; the URLs the
crawler handles are ASCII). -/
def wordChar (c : Char) : Bool :=
  ('a' ≤ c && c ≤ 'z') || ('A' ≤ c && c ≤ 'Z') || ('0' ≤ c && c ≤ '9') || c == '_'

/-- The character class of word characters and the dash. -/
def wdash : Regex := .pred (fun c => wordChar c || c == '-')

/-- Digit character class. -/
def rdigitC : Regex := .pred (fun c => '0' ≤ c && c ≤ '9')

/-- Optional: question mark postfix. -/
def ropt (r : Regex) : Regex := .alt r .eps

/-- One or more: plus postfix. -/
def rplus (r : Regex) : Regex := .seq r (.star r)

/-- Rule 1 pattern: dot-star jobs.tut.by, an optional slash, end.  The dots
between jobs, tut and by are the regex any-character, not escaped. -/
def pattern1 : Regex :=
  rcat [.star rdot, rlit "jobs".data, rdot, rlit "tut".data, rdot, rlit "by".data,
        ropt (rchar '/')]

/-- One catalog path segment: a slash then one or more word-or-dash chars. -/
def catalogSeg : Regex := Regex.seq (rchar '/') (rplus wdash)

/-- Rule 2 pattern: dot-star jobs.tut.by/catalog, one segment, an optional
slash, end. -/
def pattern2 : Regex :=
  rcat [.star rdot, rlit "jobs".data, rdot, rlit "tut".data, rdot, rlit "by".data,
        rlit "/catalog".data, catalogSeg, ropt (rchar '/')]

/-- Rule 3 pattern: dot-star jobs.tut.by/catalog, two segments, an optional
slash, an optional /page suffix, end. -/
def pattern3 : Regex :=
  rcat [.star rdot, rlit "jobs".data, rdot, rlit "tut".data, rdot, rlit "by".data,
        rlit "/catalog".data, catalogSeg, catalogSeg, ropt (rchar '/'),
        ropt (Regex.seq (rlit "/page".data) (.star rdot))]

/-- Rule 4 pattern: the source repeats the same pattern literal as rule 3. -/
def pattern4 : Regex := pattern3

/-- Rule 5 pattern: dot-star /vacancy/ then one or more digits (no end
anchor in the source; fullmatch anchors both ends regardless). -/
def pattern5 : Regex :=
  rcat [.star rdot, rlit "/vacancy/".data, rplus rdigitC]

/-! The data model of the engine. -/

/-- Task kinds: the crawl task fetches a URL, the parse task dispatches its
body through the rule table. -/
inductive TaskType where
  | crawl : TaskType
  | parse : TaskType
deriving DecidableEq, Repr

/-- One element node returned by the category list query of level1 or
level2: href holds the results of the query a slash at-href, text the
results of the query a slash text. -/
structure CatNode where
  href : List Str
  text : List Str
deriving DecidableEq, Repr

/-- A parsed document: the results of exactly the xpath queries the
handlers run against a page tree. -/
structure Doc where
  l1cats : List CatNode
  l2cats : List CatNode
  pagerNext : List Str
  vacancyLinks : List Str
  topInfo : List Str
  vacancyTitle : List Str
  companyname : List Str
  skills : List Str
  employmentType : List Str
  workHours : List Str
deriving DecidableEq, Repr

/-- A task dict.  dataRef is the reference held under the data key (none
when the key is absent, as in a bare seed task); doc is the parsed tree of
the body (none when the task has no body or parsing it failed). -/
structure Task where
  type : TaskType
  url : Str
  dataRef : Option Nat := none
  doc : Option Doc := none
deriving DecidableEq, Repr

/-- One extracted vacancy record. -/
structure Vacancy where
  title : Str
  company : Str
  salary : Str
  location : Str
  experience : Str
  skills : Str
  employment_type : Str
  workhours : Str
  category : Option Str
deriving DecidableEq, Repr

/-- Python exceptions the modelled code can raise: indexing an empty query
result, reading a missing dict key, and failure to obtain a parsed tree. -/
inductive Exc where
  | indexError : Exc
  | keyError : Exc
  | docError : Exc
deriving DecidableEq, Repr

/-- An alert: either a caught exception object, or the formatted
no-rules-applied message carrying the URL. -/
inductive Alert where
  | exc : Exc → Alert
  | noRules : Str → Alert
deriving DecidableEq, Repr

/-- The shared mutable state of a Crawler instance: the vacancies list, the
task queue (FIFO, enqueue appends on the right), the alerts list, the
visited set of fingerprints, and the heap of context dicts. -/
structure CrawlerState where
  vacancies : List Vacancy := []
  tasks : List Task := []
  alerts : List Alert := []
  visited : List Str := []
  heap : List (Option Str) := []
deriving DecidableEq, Repr

/-- Model of Crawler.add_alert. -/
def add_alert (st : CrawlerState) (a : Alert) : CrawlerState :=
  { st with alerts := st.alerts ++ [a] }

/-- Model of Crawler.add_vacancy (the condition on the mutex object in the
source is always truthy, so the append always happens). -/
def add_vacancy (st : CrawlerState) (v : Vacancy) : CrawlerState :=
  { st with vacancies := st.vacancies ++ [v] }

/-- Truthiness test of task.get of the data key: falsy when the key is
absent or the referenced dict is empty. -/
def dictEmpty (st : CrawlerState) (task : Task) : Bool :=
  match task.dataRef with
  | none => true
  | some r => (st.heap.getD r none).isNone

/-- The tail of add_to_queue after the dedup guard: if the data entry is
falsy it is rebound to a fresh empty dict, then the task is put on the
queue. -/
def put_task (st : CrawlerState) (task : Task) : CrawlerState :=
  if dictEmpty st task then
    { st with heap := st.heap ++ [none],
              tasks := st.tasks ++ [{ task with dataRef := some st.heap.length }] }
  else
    { st with tasks := st.tasks ++ [task] }

/-- Model of Crawler.add_to_queue, parameterised over the fingerprint
function fp (md5 hexdigest of the URL in the source).  A crawl task whose
fingerprint is already in the visited set is dropped; otherwise the
fingerprint is recorded and the task queued.  Non-crawl tasks skip the
guard entirely. -/
def add_to_queue (fp : Str → Str) (st : CrawlerState) (task : Task) : CrawlerState :=
  if task.type = TaskType.crawl then
    if fp task.url ∈ st.visited then st
    else put_task { st with visited := st.visited ++ [fp task.url] } task
  else put_task st task

/-- Model of Crawler.abs_url, parameterised over the external urljoin
capability uj.  re.match anchors at the start, so the URL is returned
unchanged exactly when it starts with the four letters http. -/
def abs_url (uj : Str → Str → Str) (base url : Str) : Str :=
  if rmatchPrefix (rlit "http".data) url then url else uj base url

/-- Model of Crawler.get_category: task.get of data then .get of category;
any exception (attribute access on None) is swallowed to None.  A missing
key and a None value are both returned as none. -/
def get_category (st : CrawlerState) (task : Task) : Option Str :=
  match task.dataRef with
  | none => none
  | some r => st.heap.getD r none

/-! The handlers.  Each returns the state reached when it finished or
raised, together with the exception that escaped it, if any. -/

/-- The loop body of level1 over the category nodes.  Per node the source
indexes href then text, reads the data key of the task (the shared parent
dict: no copy), overwrites its category with the stripped label, and
enqueues a crawl task referencing that same dict. -/
def level1Go (fp : Str → Str) (uj : Str → Str → Str) (taskUrl : Str)
    (ref : Option Nat) : List CatNode → CrawlerState → CrawlerState × Option Exc
  | [], st => (st, none)
  | cat :: rest, st =>
    match cat.href with
    | [] => (st, some .indexError)
    | h :: _ =>
      match cat.text with
      | [] => (st, some .indexError)
      | nm :: _ =>
        let url := abs_url uj taskUrl h
        match ref with
        | none => (st, some .keyError)
        | some r =>
          let st := { st with heap := st.heap.set r (some (pystrip nm)) }
          let st := add_to_queue fp st { type := .crawl, url := url, dataRef := some r }
          level1Go fp uj taskUrl ref rest st

/-- Model of Crawler.level1 (top level category expansion). -/
def level1 (fp : Str → Str) (uj : Str → Str → Str) (st : CrawlerState)
    (task : Task) : CrawlerState × Option Exc :=
  match task.doc with
  | none => (st, some .docError)
  | some doc => level1Go fp uj task.url task.dataRef doc.l1cats st

/-- The loop body of level2 over the category nodes.  Per node the source
indexes href then text, deepcopies the data dict of the task, sets the
category of the copy to join_cats of its old category and the raw label,
and enqueues a crawl task referencing the fresh copy (the deepcopy and the
following assignment are collapsed into one fresh allocation holding the
joined category). -/
def level2Go (fp : Str → Str) (uj : Str → Str → Str) (taskUrl : Str)
    (ref : Option Nat) : List CatNode → CrawlerState → CrawlerState × Option Exc
  | [], st => (st, none)
  | cat :: rest, st =>
    match cat.href with
    | [] => (st, some .indexError)
    | h :: _ =>
      match cat.text with
      | [] => (st, some .indexError)
      | nm :: _ =>
        let url := abs_url uj taskUrl h
        match ref with
        | none => (st, some .keyError)
        | some r =>
          let newCat := join_cats ((st.heap.getD r none).getD []) nm
          let newRef := st.heap.length
          let st := { st with heap := st.heap ++ [some newCat] }
          let st := add_to_queue fp st { type := .crawl, url := url, dataRef := some newRef }
          level2Go fp uj taskUrl ref rest st

/-- Model of Crawler.level2 (subcategory expansion). -/
def level2 (fp : Str → Str) (uj : Str → Str → Str) (st : CrawlerState)
    (task : Task) : CrawlerState × Option Exc :=
  match task.doc with
  | none => (st, some .docError)
  | some doc => level2Go fp uj task.url task.dataRef doc.l2cats st

/-- Model of Crawler.pagination: indexes the single pager-next href (an
IndexError escapes when the query is empty), resolves it, and enqueues one
crawl task aliasing the data dict of the parent. -/
def pagination (fp : Str → Str) (uj : Str → Str → Str) (st : CrawlerState)
    (task : Task) : CrawlerState × Option Exc :=
  match task.doc with
  | none => (st, some .docError)
  | some doc =>
    match doc.pagerNext with
    | [] => (st, some .indexError)
    | h :: _ =>
      let next := abs_url uj task.url h
      match task.dataRef with
      | none => (st, some .keyError)
      | some r =>
        (add_to_queue fp st { type := .crawl, url := next, dataRef := some r }, none)

/-- The loop body of vacancies_list: each detail href is enqueued raw, with
no abs_url resolution, aliasing the data dict of the parent. -/
def vacanciesGo (fp : Str → Str) (ref : Option Nat) :
    List Str → CrawlerState → CrawlerState × Option Exc
  | [], st => (st, none)
  | u :: rest, st =>
    match ref with
    | none => (st, some .keyError)
    | some r =>
      vacanciesGo fp ref rest
        (add_to_queue fp st { type := .crawl, url := u, dataRef := some r })

/-- Model of Crawler.vacancies_list (listing expansion). -/
def vacancies_list (fp : Str → Str) (_uj : Str → Str → Str) (st : CrawlerState)
    (task : Task) : CrawlerState × Option Exc :=
  match task.doc with
  | none => (st, some .docError)
  | some doc => vacanciesGo fp task.dataRef doc.vacancyLinks st

/-- Model of Crawler.extractor.  The vacancy dict literal is evaluated
field by field; the first empty required query raises an IndexError before
anything is appended.  location joins the middle slice of topInfo and
cannot raise; experience indexes the last element of topInfo, which exists
once the first does; skills joins possibly zero elements. -/
def extractor (_fp : Str → Str) (_uj : Str → Str → Str) (st : CrawlerState)
    (task : Task) : CrawlerState × Option Exc :=
  match task.doc with
  | none => (st, some .docError)
  | some doc =>
    match doc.vacancyTitle with
    | [] => (st, some .indexError)
    | t :: _ =>
      match doc.companyname with
      | [] => (st, some .indexError)
      | comp :: _ =>
        match doc.topInfo with
        | [] => (st, some .indexError)
        | s0 :: _ =>
          match doc.employmentType with
          | [] => (st, some .indexError)
          | et :: _ =>
            match doc.workHours with
            | [] => (st, some .indexError)
            | wh :: _ =>
              let vac : Vacancy :=
                { title := pystrip t,
                  company := pystrip comp,
                  salary := pystrip s0,
                  location := pystrip (pyjoin " ".data ((doc.topInfo.drop 1).dropLast)),
                  experience := pystrip (doc.topInfo.getLast?.getD []),
                  skills := pyjoin " |||| ".data doc.skills,
                  employment_type := et,
                  workhours := wh,
                  category := get_category st task }
              (add_vacancy st vac, none)

/-- One rule of the table: a pattern and a handler. -/
structure Rule where
  pattern : Regex
  fn : CrawlerState → Task → CrawlerState × Option Exc

/-- Model of Crawler.rules: the ordered rule table. -/
def rules (fp : Str → Str) (uj : Str → Str → Str) : List Rule :=
  [ ⟨pattern1, level1 fp uj⟩,
    ⟨pattern2, level2 fp uj⟩,
    ⟨pattern3, pagination fp uj⟩,
    ⟨pattern4, vacancies_list fp uj⟩,
    ⟨pattern5, extractor fp uj⟩ ]

/-- The rule loop of Crawler.parse: every rule whose pattern fullmatches
the task URL is run; a handler completing normally sets the applied flag; a
handler that raises has its exception appended as an alert and leaves the
flag as it was. -/
def runRules : List Rule → Task → CrawlerState → Bool → CrawlerState × Bool
  | [], _, st, applied => (st, applied)
  | r :: rest, task, st, applied =>
    if rmatch r.pattern task.url then
      match r.fn st task with
      | (st', none) => runRules rest task st' true
      | (st', some e) => runRules rest task (add_alert st' (.exc e)) applied
    else runRules rest task st applied

/-- Model of Crawler.parse: run the rule table; when no rule was applied,
record the no-rules-applied alert for the URL.  (Setting the doc key from
the body happens before the loop in the source; a task here carries its
parsed tree already.) -/
def parse (fp : Str → Str) (uj : Str → Str → Str) (st : CrawlerState)
    (task : Task) : CrawlerState :=
  match runRules (rules fp uj) task st false with
  | (st', applied) => if applied then st' else add_alert st' (.noRules task.url)

/-! Exception projections: for each handler, the exception it raises on a
given task.  A handler only reads the document and the data reference of
the task to decide whether it raises, never the shared state, so these are
functions of the task alone; this is proved below and used to characterise
the alerts produced by the dispatch loop. -/

/-- The exception escaping the level1 and level2 loops: per node the href
index, then the text index, then the data key access can fail. -/
def catsExc (ref : Option Nat) : List CatNode → Option Exc
  | [] => none
  | cat :: rest =>
    match cat.href with
    | [] => some .indexError
    | _ :: _ =>
      match cat.text with
      | [] => some .indexError
      | _ :: _ =>
        match ref with
        | none => some .keyError
        | some _ => catsExc ref rest

/-- The exception escaping level1 on a task. -/
def level1Exc (task : Task) : Option Exc :=
  match task.doc with
  | none => some .docError
  | some doc => catsExc task.dataRef doc.l1cats

/-- The exception escaping level2 on a task. -/
def level2Exc (task : Task) : Option Exc :=
  match task.doc with
  | none => some .docError
  | some doc => catsExc task.dataRef doc.l2cats

/-- The exception escaping pagination on a task: the missing next link is
an IndexError, a missing data key a KeyError. -/
def paginationExc (task : Task) : Option Exc :=
  match task.doc with
  | none => some .docError
  | some doc =>
    match doc.pagerNext with
    | [] => some .indexError
    | _ :: _ =>
      match task.dataRef with
      | none => some .keyError
      | some _ => none

/-- The exception escaping vacancies_list on a task: the data key is only
read when there is at least one link. -/
def vacanciesExc (task : Task) : Option Exc :=
  match task.doc with
  | none => some .docError
  | some doc =>
    match doc.vacancyLinks with
    | [] => none
    | _ :: _ =>
      match task.dataRef with
      | none => some .keyError
      | some _ => none

/-- The exception escaping the extractor on a task: an empty result for
any of the five indexed queries is an IndexError. -/
def extractorExc (task : Task) : Option Exc :=
  match task.doc with
  | none => some .docError
  | some doc =>
    if doc.vacancyTitle = [] ∨ doc.companyname = [] ∨ doc.topInfo = [] ∨
        doc.employmentType = [] ∨ doc.workHours = [] then some .indexError
    else none

/-- The alert contribution of one rule: nothing when its pattern does not
match or its handler completes, one exception alert when it raises. -/
def ruleAlert (m : Bool) (e : Option Exc) : List Alert :=
  if m then
    match e with
    | some x => [Alert.exc x]
    | none => []
  else []

/-- The alerts the dispatch loop of parse records for a task, rule by rule
in table order. -/
def dispatchAlerts (task : Task) : List Alert :=
  ruleAlert (rmatch pattern1 task.url) (level1Exc task) ++
  ruleAlert (rmatch pattern2 task.url) (level2Exc task) ++
  ruleAlert (rmatch pattern3 task.url) (paginationExc task) ++
  ruleAlert (rmatch pattern4 task.url) (vacanciesExc task) ++
  ruleAlert (rmatch pattern5 task.url) (extractorExc task)

/-- Whether some rule both matches the task URL and completes without an
exception: exactly the condition under which parse sets its applied flag. -/
def ruleSucceeded (task : Task) : Bool :=
  (rmatch pattern1 task.url && (level1Exc task).isNone) ||
  (rmatch pattern2 task.url && (level2Exc task).isNone) ||
  (rmatch pattern3 task.url && (paginationExc task).isNone) ||
  (rmatch pattern4 task.url && (vacanciesExc task).isNone) ||
  (rmatch pattern5 task.url && (extractorExc task).isNone)

/-- Is an alert an exception alert (as opposed to the no-rules message). -/
def isExcAlert : Alert → Bool
  | .exc _ => true
  | .noRules _ => false

/-- A rule together with its exception projection, for the generic
characterisation of the dispatch loop. -/
structure RuleSpec where
  rule : Rule
  exc : Task → Option Exc

/-- The rule table paired with the exception projections. -/
def ruleSpecs (fp : Str → Str) (uj : Str → Str → Str) : List RuleSpec :=
  [ ⟨⟨pattern1, level1 fp uj⟩, level1Exc⟩,
    ⟨⟨pattern2, level2 fp uj⟩, level2Exc⟩,
    ⟨⟨pattern3, pagination fp uj⟩, paginationExc⟩,
    ⟨⟨pattern4, vacancies_list fp uj⟩, vacanciesExc⟩,
    ⟨⟨pattern5, extractor fp uj⟩, extractorExc⟩ ]

/-- The alerts a list of rule specs contributes for a task. -/
def specAlerts (task : Task) (L : List RuleSpec) : List Alert :=
  L.foldr (fun sp acc => ruleAlert (rmatch sp.rule.pattern task.url) (sp.exc task) ++ acc) []

/-- Whether some rule spec in the list matches and completes. -/
def specSucceeded (task : Task) (L : List RuleSpec) : Bool :=
  L.any fun sp => rmatch sp.rule.pattern task.url && (sp.exc task).isNone

/-! A model of the unlocked dedup guard under concurrent callers.  The
dedup block of add_to_queue runs without holding the mutex; under the
interpreter each statement is atomic but the scheduler may switch threads
between statements.  A thread enqueueing one crawl task is a small program
over the shared state: test membership of the fingerprint, then (in the
unseen branch) insert it into the set, then put the task on the queue. -/

/-- The shared state touched by the dedup guard: the visited set and the
task queue (tasks represented by their URL). -/
structure DedupState where
  visited : List Str := []
  queued : List Str := []
deriving DecidableEq, Repr

/-- Program counter of one thread running the crawl branch of
add_to_queue for one task. -/
inductive Pc where
  | checkMembership : Pc
  | insertFingerprint : Pc
  | putTask : Pc
  | finished : Pc
deriving DecidableEq, Repr

/-- One atomic statement of a thread: the membership test decides the
branch; insertion into the set is idempotent; putting appends to the
queue.  fpu is the fingerprint of the URL being enqueued. -/
def threadStep (fpu url : Str) : Pc → DedupState → Pc × DedupState
  | .checkMembership, s =>
    if fpu ∈ s.visited then (.finished, s) else (.insertFingerprint, s)
  | .insertFingerprint, s =>
    (.putTask, { s with visited := if fpu ∈ s.visited then s.visited else s.visited ++ [fpu] })
  | .putTask, s => (.finished, { s with queued := s.queued ++ [url] })
  | .finished, s => (.finished, s)

/-- Run two threads, both enqueueing the same URL, under a schedule: true
picks the first thread for the next atomic statement, false the second. -/
def runSched (fpu url : Str) : List Bool → Pc × Pc × DedupState → Pc × Pc × DedupState
  | [], c => c
  | b :: rest, (p1, p2, s) =>
    if b then
      match threadStep fpu url p1 s with
      | (p1', s') => runSched fpu url rest (p1', p2, s')
    else
      match threadStep fpu url p2 s with
      | (p2', s') => runSched fpu url rest (p1, p2', s')

/-! Concrete instantiations of the external capabilities and concrete
inputs, used by the closed evaluations below.  The fingerprint is the
identity function (standing for the md5 hexdigest, which is likewise
injective on the handful of short URLs involved); urljoin is plain
concatenation of base and reference, which is all the closed runs need. -/

/-- Concrete fingerprint used in closed evaluations. -/
def cfp : Str → Str := fun s => s

/-- Concrete urljoin used in closed evaluations. -/
def cuj : Str → Str → Str := fun base url => base ++ url

/-- A listing page with no next-page link and no detail links. -/
def c1doc : Doc := ⟨[], [], [], [], [], [], [], [], [], []⟩

/-- A parse task for a paginated listing URL carrying c1doc. -/
def c1task : Task :=
  { type := .parse, url := "jobs.tut.by/catalog/a/b".data, dataRef := some 0,
    doc := some c1doc }

/-- A state whose single context dict binds a category. -/
def c1st : CrawlerState := { heap := [some "C".data] }

/-- A detail page whose title query is empty but whose other required
queries are not. -/
def c2doc : Doc :=
  ⟨[], [], [], [], ["i".data], [], ["c".data], [], ["e".data], ["w".data]⟩

/-- A parse task for a vacancy detail URL carrying c2doc. -/
def c2task : Task :=
  { type := .parse, url := "/vacancy/1".data, dataRef := some 0, doc := some c2doc }

/-- An empty initial state. -/
def c2st : CrawlerState := {}

/-- A root page listing two categories, A at /catalog/a and B at
/catalog/b. -/
def c3doc : Doc :=
  ⟨[⟨["/catalog/a".data], ["A".data]⟩, ⟨["/catalog/b".data], ["B".data]⟩],
   [], [], [], [], [], [], [], [], []⟩

/-- A parse task for the root URL carrying c3doc, referencing dict 0. -/
def c3task : Task :=
  { type := .parse, url := "jobs.tut.by".data, dataRef := some 0, doc := some c3doc }

/-- A state whose single context dict is empty. -/
def c3st : CrawlerState := { heap := [none] }

/-- A listing page with one scheme-relative detail link and no next-page
link. -/
def c7doc : Doc := ⟨[], [], [], ["//jobs.tut.by/vacancy/1".data], [], [], [], [], [], []⟩

/-- A parse task for a paginated listing URL carrying c7doc. -/
def c7task : Task :=
  { type := .parse, url := "jobs.tut.by/catalog/a/b".data, dataRef := some 0,
    doc := some c7doc }

/-- A state whose single context dict binds a category. -/
def c7st : CrawlerState := { heap := [some "C".data] }

/-- A listing page with a next-page link and one detail link. -/
def w4doc : Doc :=
  ⟨[], [], ["/page2".data], ["/vacancy/9".data], [], [], [], [], [], []⟩

/-- A parse task for a paginated listing URL carrying w4doc. -/
def w4task : Task :=
  { type := .parse, url := "jobs.tut.by/catalog/a/b".data, dataRef := some 0,
    doc := some w4doc }

/-- A state whose single context dict binds a category. -/
def w4st : CrawlerState := { heap := [some "C".data] }

/-- A bare crawl seed task (no data key). -/
def w6seed : Task := { type := .crawl, url := "jobs.tut.by".data }

/-- A parse task for the same URL. -/
def w6ptask : Task := { type := .parse, url := "jobs.tut.by".data }

/-- An empty initial state. -/
def w6st : CrawlerState := {}

/-- A page carrying one top-level category node, one subcategory node and
a next-page link. -/
def w7doc : Doc :=
  ⟨[⟨["/catalog/x".data], ["X".data]⟩], [⟨["/catalog/x/y".data], ["Y".data]⟩],
   ["/page3".data], [], [], [], [], [], [], []⟩

/-- A parse task carrying w7doc. -/
def w7task : Task :=
  { type := .parse, url := "jobs.tut.by/catalog/a/b".data, dataRef := some 0,
    doc := some w7doc }

/-- A state whose single context dict binds a category. -/
def w7st : CrawlerState := { heap := [some "C".data] }

/-- A detail page whose title query is empty. -/
def w8baddoc : Doc :=
  ⟨[], [], [], [], ["i".data], [], ["c".data], [], ["e".data], ["w".data]⟩

/-- A parse task for a vacancy URL carrying w8baddoc. -/
def w8badtask : Task :=
  { type := .parse, url := "/vacancy/7".data, dataRef := none, doc := some w8baddoc }

/-- A detail page with every required query non-empty. -/
def w8gooddoc : Doc :=
  ⟨[], [], [], [], ["s".data, "loc".data, "exp".data], ["T".data], ["Co".data],
   ["sk1".data, "sk2".data], ["ft".data], ["8h".data]⟩

/-- A parse task for a vacancy URL carrying w8gooddoc. -/
def w8goodtask : Task :=
  { type := .parse, url := "/vacancy/8".data, dataRef := some 0, doc := some w8gooddoc }

/-- A state whose single context dict binds a category. -/
def w8st : CrawlerState := { heap := [some "C".data] }

/-! Lemmas about the Python string operations, leading to the algebra of
join_cats. -/

/-- Joining a cons with a non-empty tail inserts one separator. -/
theorem pyjoin_cons_ne (sep : Str) (x : Str) (L : List Str) (hL : L ≠ []) :
    pyjoin sep (x :: L) = x ++ sep ++ pyjoin sep L := by
  cases L with
  | nil => exact absurd rfl hL
  | cons a as => rfl

/-- Splitting always yields at least one piece. -/
theorem pysplit_ne_nil (sep s : Str) : pysplit sep s ≠ [] := by
  induction s using pysplit.induct sep with
  | case1 => simp [pysplit]
  | case2 c rest h ih => rw [pysplit, dif_pos h]; simp
  | case3 c rest h hnil ih => exact absurd hnil ih
  | case4 c rest h p ps hps ih => rw [pysplit, dif_neg h, hps]; simp

/-- Joining the pieces of a split restores the original string (the
Python identity sep.join(s.split(sep)) == s). -/
theorem pyjoin_pysplit (sep s : Str) : pyjoin sep (pysplit sep s) = s := by
  induction s using pysplit.induct sep with
  | case1 => rw [pysplit]; rfl
  | case2 c rest h ih =>
    obtain ⟨t, ht⟩ : sep <+: (c :: rest) := List.isPrefixOf_iff_prefix.mp h.2
    have hdrop : (c :: rest).drop sep.length = t := by rw [← ht, List.drop_left]
    rw [pysplit, dif_pos h, hdrop]
    rw [hdrop] at ih
    obtain ⟨p, ps, hps⟩ : ∃ p ps, pysplit sep t = p :: ps := by
      cases hq : pysplit sep t with
      | nil => exact absurd hq (pysplit_ne_nil sep t)
      | cons p ps => exact ⟨p, ps, rfl⟩
    rw [hps] at ih ⊢
    rw [pyjoin_cons_ne sep [] (p :: ps) (by simp), ih]
    simpa using ht
  | case3 c rest h hnil ih => exact absurd hnil (pysplit_ne_nil sep rest)
  | case4 c rest h p ps hps ih =>
    rw [pysplit, dif_neg h, hps]
    rw [hps] at ih
    cases ps with
    | nil =>
      have h1 : pyjoin sep [c :: p] = c :: p := rfl
      have h2 : pyjoin sep [p] = p := rfl
      rw [h1]
      rw [h2] at ih
      rw [ih]
    | cons q qs =>
      rw [pyjoin_cons_ne sep (c :: p) (q :: qs) (by simp),
          pyjoin_cons_ne sep p (q :: qs) (by simp)] at *
      rw [List.cons_append, List.cons_append, ih]

/-- Joining an append of two non-empty piece lists splits into the two
joins around one separator. -/
theorem pyjoin_append (sep : Str) (xs ys : List Str) (hx : xs ≠ []) (hy : ys ≠ []) :
    pyjoin sep (xs ++ ys) = pyjoin sep xs ++ sep ++ pyjoin sep ys := by
  induction xs with
  | nil => exact absurd rfl hx
  | cons x xs ih =>
    cases xs with
    | nil =>
      simp only [List.singleton_append]
      rw [pyjoin_cons_ne sep x ys hy]
      rfl
    | cons x2 xs2 =>
      have e1 : (x :: x2 :: xs2) ++ ys = x :: ((x2 :: xs2) ++ ys) := rfl
      rw [e1, pyjoin_cons_ne sep x _ (by simp), ih (by simp),
          pyjoin_cons_ne sep x (x2 :: xs2) (by simp)]
      simp [List.append_assoc]

/-- On two non-empty categories, join_cats is plain concatenation around
one separator: the split-then-join in the source is the identity. -/
theorem join_cats_eq (a b : Str) (ha : a ≠ []) (hb : b ≠ []) :
    join_cats a b = a ++ sepCats ++ b := by
  rw [join_cats, if_pos ⟨ha, hb⟩,
      pyjoin_append sepCats _ _ (pysplit_ne_nil _ _) (pysplit_ne_nil _ _),
      pyjoin_pysplit, pyjoin_pysplit]

/-- The empty category is a right identity of join_cats. -/
theorem join_cats_nil_right (a : Str) : join_cats a [] = a := by
  by_cases ha : a = []
  · subst ha; rfl
  · rw [join_cats, if_neg (by simp), if_pos ha]

/-- The empty category is a left identity of join_cats. -/
theorem join_cats_nil_left (b : Str) : join_cats [] b = b := by
  by_cases hb : b = []
  · subst hb; rfl
  · rw [join_cats, if_neg (by simp), if_neg (by simp), if_pos hb]

/-- C5: the category join satisfies the four stated equations and is
associative on all strings, producing one separator-delimited path
regardless of grouping. -/
theorem join_cats_algebra :
    join_cats "A".data "B".data = "A ->>> B".data
    ∧ (∀ a : Str, join_cats a [] = a)
    ∧ (∀ b : Str, join_cats [] b = b)
    ∧ join_cats [] [] = []
    ∧ ∀ a b c : Str, join_cats (join_cats a b) c = join_cats a (join_cats b c) := by
  refine ⟨?_, join_cats_nil_right, join_cats_nil_left, rfl, ?_⟩
  · rw [join_cats_eq _ _ (by decide) (by decide)]; rfl
  · intro a b c
    by_cases ha : a = []
    · subst ha; rw [join_cats_nil_left, join_cats_nil_left]
    · by_cases hb : b = []
      · subst hb; rw [join_cats_nil_right, join_cats_nil_left]
      · by_cases hc : c = []
        · subst hc; rw [join_cats_nil_right, join_cats_nil_right]
        · have hab : a ++ sepCats ++ b ≠ [] := by simp [ha]
          have hbc : b ++ sepCats ++ c ≠ [] := by simp [hb]
          rw [join_cats_eq a b ha hb, join_cats_eq _ c hab hc,
              join_cats_eq b c hb hc, join_cats_eq a _ ha hbc]
          simp [List.append_assoc]

theorem rmatchPrefix_emp (s : Str) : rmatchPrefix Regex.emp s = false := by
  induction s with
  | nil => rfl
  | cons c rest ih => simp [rmatchPrefix, Regex.deriv, Regex.nullable, ih]

theorem rseq_emp_left (r : Regex) : Regex.rseq Regex.emp r = Regex.emp := by
  cases r <;> rfl

theorem rseq_eps_rlit (l : Str) : Regex.rseq Regex.eps (rlit l) = rlit l := by
  cases l with
  | nil => rfl
  | cons c cs => rfl

theorem rmatchPrefix_rlit (l : Str) : ∀ s : Str, rmatchPrefix (rlit l) s = l.isPrefixOf s := by
  induction l with
  | nil =>
    intro s
    cases s with
    | nil => rfl
    | cons c rest => simp [rmatchPrefix, Regex.nullable, rlit, rcat, List.isPrefixOf]
  | cons c cs ih =>
    intro s
    cases s with
    | nil => simp [rmatchPrefix, rlit, rcat, rchar, Regex.nullable, List.isPrefixOf]
    | cons d rest =>
      have hlit : rlit (c :: cs) = Regex.seq (rchar c) (rlit cs) := rfl
      rw [hlit]
      have hstep : rmatchPrefix (Regex.seq (rchar c) (rlit cs)) (d :: rest)
          = ((Regex.seq (rchar c) (rlit cs)).nullable
              || rmatchPrefix ((Regex.seq (rchar c) (rlit cs)).deriv d) rest) := rfl
      rw [hstep]
      have hnul : (Regex.seq (rchar c) (rlit cs)).nullable = false := by
        simp [Regex.nullable, rchar]
      rw [hnul, Bool.false_or]
      have hder : (Regex.seq (rchar c) (rlit cs)).deriv d
          = Regex.rseq (if d == c then Regex.eps else Regex.emp) (rlit cs) := by
        simp [Regex.deriv, Regex.nullable, rchar]
      rw [hder]
      have hpre : (c :: cs).isPrefixOf (d :: rest) = (c == d && cs.isPrefixOf rest) := rfl
      rw [hpre]
      cases hb : d == c with
      | true =>
        rw [if_pos rfl, rseq_eps_rlit, ih rest]
        have hdc : d = c := by simpa using hb
        have hcd : (c == d) = true := by simp [hdc]
        rw [hcd, Bool.true_and]
      | false =>
        rw [if_neg (by simp), rseq_emp_left, rmatchPrefix_emp]
        have hdc : ¬ d = c := by simpa using hb
        have hne : ¬ c = d := by intro h; exact hdc h.symm
        have hcd : (c == d) = false := by simpa using hne
        rw [hcd, Bool.false_and]

/-- C10: the URL resolution helper returns its url argument unchanged
exactly when the url starts with the four letters http (re.match anchors
at the start), even for a relative path that merely begins with those
letters; otherwise it joins the url against the base via the external
urljoin. -/
theorem abs_url_http_passthrough (uj : Str → Str → Str) (base url : Str) :
    abs_url uj base url = if "http".data.isPrefixOf url then url else uj base url := by
  rw [abs_url, rmatchPrefix_rlit]


theorem put_task_alerts (st : CrawlerState) (t : Task) :
    (put_task st t).alerts = st.alerts := by
  rw [put_task]; split_ifs <;> rfl

theorem add_to_queue_alerts (fp : Str → Str) (st : CrawlerState) (t : Task) :
    (add_to_queue fp st t).alerts = st.alerts := by
  rw [add_to_queue]
  split_ifs <;> simp [put_task_alerts]

theorem level1Go_spec (fp : Str → Str) (uj : Str → Str → Str) (u : Str) (ref : Option Nat) :
    ∀ (cats : List CatNode) (st : CrawlerState),
      (level1Go fp uj u ref cats st).2 = catsExc ref cats
      ∧ (level1Go fp uj u ref cats st).1.alerts = st.alerts := by
  intro cats
  induction cats with
  | nil => intro st; simp [level1Go, catsExc]
  | cons cat rest ih =>
    intro st
    obtain ⟨href, text⟩ := cat
    cases href with
    | nil => simp [level1Go, catsExc]
    | cons h hs =>
      cases text with
      | nil => simp [level1Go, catsExc]
      | cons nm nms =>
        cases ref with
        | none => simp [level1Go, catsExc]
        | some r =>
          simp only [level1Go, catsExc]
          refine ⟨(ih _).1, ?_⟩
          rw [(ih _).2, add_to_queue_alerts]

theorem level2Go_spec (fp : Str → Str) (uj : Str → Str → Str) (u : Str) (ref : Option Nat) :
    ∀ (cats : List CatNode) (st : CrawlerState),
      (level2Go fp uj u ref cats st).2 = catsExc ref cats
      ∧ (level2Go fp uj u ref cats st).1.alerts = st.alerts := by
  intro cats
  induction cats with
  | nil => intro st; simp [level2Go, catsExc]
  | cons cat rest ih =>
    intro st
    obtain ⟨href, text⟩ := cat
    cases href with
    | nil => simp [level2Go, catsExc]
    | cons h hs =>
      cases text with
      | nil => simp [level2Go, catsExc]
      | cons nm nms =>
        cases ref with
        | none => simp [level2Go, catsExc]
        | some r =>
          simp only [level2Go, catsExc]
          refine ⟨(ih _).1, ?_⟩
          rw [(ih _).2, add_to_queue_alerts]

theorem vacanciesGo_spec (fp : Str → Str) (ref : Option Nat) :
    ∀ (links : List Str) (st : CrawlerState),
      (vacanciesGo fp ref links st).2
        = (match links with
           | [] => none
           | _ :: _ => match ref with
                       | none => some Exc.keyError
                       | some _ => none)
      ∧ (vacanciesGo fp ref links st).1.alerts = st.alerts := by
  intro links
  induction links with
  | nil => intro st; simp [vacanciesGo]
  | cons u rest ih =>
    intro st
    cases ref with
    | none => simp [vacanciesGo]
    | some r =>
      simp only [vacanciesGo]
      have hrest := ih (add_to_queue fp st { type := .crawl, url := u, dataRef := some r })
      refine ⟨?_, ?_⟩
      · rw [hrest.1]
        cases rest <;> rfl
      · rw [hrest.2, add_to_queue_alerts]

theorem level1_spec (fp : Str → Str) (uj : Str → Str → Str) (st : CrawlerState) (task : Task) :
    (level1 fp uj st task).2 = level1Exc task
    ∧ (level1 fp uj st task).1.alerts = st.alerts := by
  cases hdoc : task.doc with
  | none => simp [level1, level1Exc, hdoc]
  | some doc => simp [level1, level1Exc, hdoc, level1Go_spec]

theorem level2_spec (fp : Str → Str) (uj : Str → Str → Str) (st : CrawlerState) (task : Task) :
    (level2 fp uj st task).2 = level2Exc task
    ∧ (level2 fp uj st task).1.alerts = st.alerts := by
  cases hdoc : task.doc with
  | none => simp [level2, level2Exc, hdoc]
  | some doc => simp [level2, level2Exc, hdoc, level2Go_spec]

theorem pagination_spec (fp : Str → Str) (uj : Str → Str → Str) (st : CrawlerState) (task : Task) :
    (pagination fp uj st task).2 = paginationExc task
    ∧ (pagination fp uj st task).1.alerts = st.alerts := by
  cases hdoc : task.doc with
  | none => simp [pagination, paginationExc, hdoc]
  | some doc =>
    cases hn : doc.pagerNext with
    | nil => simp [pagination, paginationExc, hdoc, hn]
    | cons h hs =>
      cases hr : task.dataRef with
      | none => simp [pagination, paginationExc, hdoc, hn, hr]
      | some r => simp [pagination, paginationExc, hdoc, hn, hr, add_to_queue_alerts]

theorem vacancies_list_spec (fp : Str → Str) (uj : Str → Str → Str) (st : CrawlerState) (task : Task) :
    (vacancies_list fp uj st task).2 = vacanciesExc task
    ∧ (vacancies_list fp uj st task).1.alerts = st.alerts := by
  cases hdoc : task.doc with
  | none => simp [vacancies_list, vacanciesExc, hdoc]
  | some doc =>
    have h := vacanciesGo_spec fp task.dataRef doc.vacancyLinks st
    refine ⟨?_, ?_⟩
    · rw [vacancies_list]
      simp only [hdoc]
      rw [h.1, vacanciesExc]
      simp only [hdoc]
    · rw [vacancies_list]
      simp only [hdoc]
      exact h.2

theorem extractor_spec (fp : Str → Str) (uj : Str → Str → Str) (st : CrawlerState) (task : Task) :
    (extractor fp uj st task).2 = extractorExc task
    ∧ (extractor fp uj st task).1.alerts = st.alerts := by
  cases hdoc : task.doc with
  | none => simp [extractor, extractorExc, hdoc]
  | some doc =>
    cases ht : doc.vacancyTitle with
    | nil => simp [extractor, extractorExc, hdoc, ht]
    | cons t ts =>
      cases hc : doc.companyname with
      | nil => simp [extractor, extractorExc, hdoc, ht, hc]
      | cons comp cs =>
        cases hti : doc.topInfo with
        | nil => simp [extractor, extractorExc, hdoc, ht, hc, hti]
        | cons s0 tis =>
          cases he : doc.employmentType with
          | nil => simp [extractor, extractorExc, hdoc, ht, hc, hti, he]
          | cons et ets =>
            cases hw : doc.workHours with
            | nil => simp [extractor, extractorExc, hdoc, ht, hc, hti, he, hw]
            | cons wh whs =>
              simp [extractor, extractorExc, hdoc, ht, hc, hti, he, hw, add_vacancy]



theorem runRules_spec (task : Task) :
    ∀ (L : List RuleSpec),
      (∀ sp ∈ L, ∀ st : CrawlerState,
          (sp.rule.fn st task).2 = sp.exc task ∧ (sp.rule.fn st task).1.alerts = st.alerts) →
      ∀ (st : CrawlerState) (b : Bool),
        (runRules (L.map fun sp => sp.rule) task st b).1.alerts
          = st.alerts ++ specAlerts task L
        ∧ (runRules (L.map fun sp => sp.rule) task st b).2
          = (b || specSucceeded task L) := by
  intro L
  induction L with
  | nil => intro _ st b; simp [runRules, specAlerts, specSucceeded]
  | cons sp rest ih =>
    intro hL st b
    have hsp := hL sp (by simp)
    have hrest : ∀ sp' ∈ rest, ∀ st : CrawlerState,
        (sp'.rule.fn st task).2 = sp'.exc task
        ∧ (sp'.rule.fn st task).1.alerts = st.alerts :=
      fun sp' h => hL sp' (List.mem_cons_of_mem _ h)
    simp only [List.map_cons, runRules]
    cases hm : rmatch sp.rule.pattern task.url with
    | false =>
      simp only [Bool.false_eq_true, if_false]
      have h := ih hrest st b
      refine ⟨?_, ?_⟩
      · rw [h.1]; simp [specAlerts, ruleAlert, hm]
      · rw [h.2]; simp [specSucceeded, hm]
    | true =>
      simp only [if_true]
      rcases hfn : sp.rule.fn st task with ⟨st1, e⟩
      have he : e = sp.exc task := by rw [← (hsp st).1, hfn]
      have halerts : st1.alerts = st.alerts := by
        have := (hsp st).2
        rw [hfn] at this
        exact this
      cases hex : sp.exc task with
      | none =>
        subst he
        rw [hex]
        simp only [hex]
        have h := ih hrest st1 true
        refine ⟨?_, ?_⟩
        · rw [h.1, halerts]; simp [specAlerts, ruleAlert, hm, hex]
        · rw [h.2]; simp [specSucceeded, hm, hex]
      | some x =>
        subst he
        rw [hex]
        simp only [hex]
        have h := ih hrest (add_alert st1 (.exc x)) b
        refine ⟨?_, ?_⟩
        · rw [h.1]
          simp [add_alert, halerts, specAlerts, ruleAlert, hm, hex, List.append_assoc]
        · rw [h.2]; simp [specSucceeded, hm, hex]

theorem ruleSpecs_sound (fp : Str → Str) (uj : Str → Str → Str) (task : Task) :
    ∀ sp ∈ ruleSpecs fp uj, ∀ st : CrawlerState,
      (sp.rule.fn st task).2 = sp.exc task
      ∧ (sp.rule.fn st task).1.alerts = st.alerts := by
  intro sp hsp st
  simp only [ruleSpecs, List.mem_cons, List.mem_singleton, List.not_mem_nil, or_false] at hsp
  rcases hsp with rfl | rfl | rfl | rfl | rfl
  · exact level1_spec fp uj st task
  · exact level2_spec fp uj st task
  · exact pagination_spec fp uj st task
  · exact vacancies_list_spec fp uj st task
  · exact extractor_spec fp uj st task

theorem specAlerts_ruleSpecs (fp : Str → Str) (uj : Str → Str → Str) (task : Task) :
    specAlerts task (ruleSpecs fp uj) = dispatchAlerts task := by
  simp [specAlerts, ruleSpecs, dispatchAlerts, List.append_assoc]

theorem specSucceeded_ruleSpecs (fp : Str → Str) (uj : Str → Str → Str) (task : Task) :
    specSucceeded task (ruleSpecs fp uj) = ruleSucceeded task := by
  simp [specSucceeded, ruleSpecs, ruleSucceeded, Bool.or_assoc]

theorem ruleAlert_all_exc (m : Bool) (e : Option Exc) :
    (ruleAlert m e).all isExcAlert = true := by
  cases m <;> cases e <;> simp [ruleAlert, isExcAlert]

/-- C2 (amended): the no-rules-applied alert is recorded if and only if no
rule both matched the URL and completed without raising.  The alerts of a
parse call are exactly the old ones, then one exception alert per
matching rule that raised (in table order), then the no-rules alert when
no matching rule completed; in particular the alert is recorded when zero
patterns match, but also when every matching handler raises. -/
theorem no_rule_alert_iff_no_rule_completed (fp : Str → Str) (uj : Str → Str → Str)
    (st : CrawlerState) (task : Task) :
    (parse fp uj st task).alerts
      = st.alerts ++ dispatchAlerts task
          ++ (if ruleSucceeded task then [] else [Alert.noRules task.url])
    ∧ (dispatchAlerts task).all isExcAlert = true := by
  refine ⟨?_, ?_⟩
  · have hmap : (ruleSpecs fp uj).map (fun sp => sp.rule) = rules fp uj := rfl
    have h := runRules_spec task (ruleSpecs fp uj) (ruleSpecs_sound fp uj task) st false
    rw [hmap, specAlerts_ruleSpecs, specSucceeded_ruleSpecs, Bool.false_or] at h
    rw [parse]
    rcases hr : runRules (rules fp uj) task st false with ⟨st1, ap⟩
    rw [hr] at h
    have hap : ap = ruleSucceeded task := h.2
    have halerts : st1.alerts = st.alerts ++ dispatchAlerts task := h.1
    cases hsuc : ruleSucceeded task with
    | true =>
      rw [hsuc] at hap
      subst hap
      simp [halerts]
    | false =>
      rw [hsuc] at hap
      subst hap
      simp [add_alert, halerts, List.append_assoc]
  · simp [dispatchAlerts, List.all_append, ruleAlert_all_exc]

/-! Helper lemmas about enqueueing. -/

/-- Putting a task preserves the visited set and appends exactly one task
with the same type and URL (only the data reference may be rebound). -/
theorem put_task_spec (st : CrawlerState) (t : Task) :
    (put_task st t).visited = st.visited
    ∧ ∃ t', (put_task st t).tasks = st.tasks ++ [t'] ∧ t'.type = t.type ∧ t'.url = t.url := by
  rw [put_task]; split
  · exact ⟨rfl, ⟨{ t with dataRef := some st.heap.length }, rfl, rfl, rfl⟩⟩
  · exact ⟨rfl, ⟨t, rfl, rfl, rfl⟩⟩

/-- Enqueueing a crawl task with an unseen fingerprint records the
fingerprint and appends one task with that URL. -/
theorem add_to_queue_fresh (fp : Str → Str) (st : CrawlerState) (t : Task)
    (hty : t.type = TaskType.crawl) (hmem : fp t.url ∉ st.visited) :
    (add_to_queue fp st t).visited = st.visited ++ [fp t.url]
    ∧ ∃ t', (add_to_queue fp st t).tasks = st.tasks ++ [t']
        ∧ t'.type = TaskType.crawl ∧ t'.url = t.url := by
  rw [add_to_queue, if_pos hty, if_neg hmem]
  have h := put_task_spec { st with visited := st.visited ++ [fp t.url] } t
  obtain ⟨t', h1, h2, h3⟩ := h.2
  exact ⟨h.1, ⟨t', h1, h2.trans hty, h3⟩⟩

/-- An empty result for any required query makes the extractor raise an
IndexError leaving the state untouched. -/
theorem extractor_fail (fp : Str → Str) (uj : Str → Str → Str)
    (st : CrawlerState) (task : Task) (doc : Doc) (hd : task.doc = some doc)
    (hbad : doc.vacancyTitle = [] ∨ doc.companyname = [] ∨ doc.topInfo = [] ∨
      doc.employmentType = [] ∨ doc.workHours = []) :
    extractor fp uj st task = (st, some Exc.indexError) := by
  rw [extractor]
  simp only [hd]
  rcases hbad with h | h | h | h | h
  · simp [h]
  · cases ht : doc.vacancyTitle <;> simp [h]
  · cases ht : doc.vacancyTitle <;> cases hc : doc.companyname <;> simp [h]
  · cases ht : doc.vacancyTitle <;> cases hc : doc.companyname <;>
      cases hti : doc.topInfo <;> simp [h]
  · cases ht : doc.vacancyTitle <;> cases hc : doc.companyname <;>
      cases hti : doc.topInfo <;> cases he : doc.employmentType <;> simp [h]

/-! Claim theorems. -/

/-- C1 counterexample: on a concrete listing page whose document has no
next-page link, parse records one alert (the IndexError that escaped
pagination, caught by the dispatch loop), while emitting zero follow-up
tasks.  This refutes the stated claim that zero alerts are recorded. -/
theorem pagination_missing_next_records_alert_cex :
    (parse cfp cuj c1st c1task).alerts = [Alert.exc Exc.indexError]
    ∧ (parse cfp cuj c1st c1task).tasks = [] := by decide

/-- C1 (amended): for every parse task of a paginated-listing URL whose
document has no next-page link (and no detail links, isolating the
pagination rule), the pagination handler emits zero follow-up tasks, but
its failed link indexing raises an IndexError that the dispatch loop
records as exactly one alert; nothing else in the state changes. -/
theorem pagination_no_next_amended (fp : Str → Str) (uj : Str → Str → Str)
    (st : CrawlerState) (task : Task) (doc : Doc)
    (h1 : rmatch pattern1 task.url = false) (h2 : rmatch pattern2 task.url = false)
    (h3 : rmatch pattern3 task.url = true) (h5 : rmatch pattern5 task.url = false)
    (hd : task.doc = some doc) (hn : doc.pagerNext = []) (hl : doc.vacancyLinks = []) :
    parse fp uj st task = add_alert st (Alert.exc Exc.indexError) := by
  simp [parse, runRules, rules, pattern4, h1, h2, h3, h5, pagination,
        vacancies_list, vacanciesGo, hd, hn, hl]

/-- C1 witness: the amended statement evaluated on the concrete inputs. -/
theorem pagination_no_next_amended_witness :
    rmatch pattern3 c1task.url = true
    ∧ parse cfp cuj c1st c1task = add_alert c1st (Alert.exc Exc.indexError) :=
  ⟨by decide,
   pagination_no_next_amended cfp cuj c1st c1task c1doc
     (by decide) (by decide) (by decide) (by decide) rfl rfl rfl⟩

/-- C2 counterexample: a vacancy URL matches rule 5, yet when its only
matching handler raises (empty title query) the no-rules-applied alert is
still recorded, next to the exception alert.  This refutes the claim that
the alert is recorded only when zero patterns match. -/
theorem no_rule_alert_despite_match_cex :
    rmatch pattern5 c2task.url = true
    ∧ (parse cfp cuj c2st c2task).alerts
        = [Alert.exc Exc.indexError, Alert.noRules "/vacancy/1".data] := by decide

/-- C3: the level1 handler binds data to the parent dict without copying,
so on a root page listing categories A and B both emitted crawl tasks
reference the same dict (reference 0), whose category after the loop is
the last label B: the first sibling does not carry its own label A.  The
run raises no exception (no alerts), so this is the normal behaviour. -/
theorem level1_sibling_context_alias_bug :
    (parse cfp cuj c3st c3task).tasks.map (fun t => t.dataRef) = [some 0, some 0]
    ∧ (parse cfp cuj c3st c3task).heap = [some "B".data]
    ∧ ((parse cfp cuj c3st c3task).tasks.map
        (fun t => get_category (parse cfp cuj c3st c3task) t))
        = [some "B".data, some "B".data]
    ∧ (parse cfp cuj c3st c3task).tasks.map (fun t => t.url)
        = ["jobs.tut.by/catalog/a".data, "jobs.tut.by/catalog/b".data]
    ∧ (parse cfp cuj c3st c3task).alerts = [] := by decide

/-- C4: on a URL matching rules 3 and 4 (which share one pattern), both
handlers run in table order.  First part: when pagination raises (no next
link), its exception is recorded per-rule and vacancies_list still runs
and contributes its task.  Second part: when both complete, the
pagination task precedes the listing task on the queue, in table order. -/
theorem dispatch_runs_all_matching_rules (fp : Str → Str) (uj : Str → Str → Str) :
    (∀ (st : CrawlerState) (task : Task) (doc : Doc) (r : Nat) (cat : Str) (l : Str),
      rmatch pattern1 task.url = false → rmatch pattern2 task.url = false →
      rmatch pattern3 task.url = true → rmatch pattern5 task.url = false →
      task.doc = some doc → task.dataRef = some r → st.heap.getD r none = some cat →
      doc.pagerNext = [] → doc.vacancyLinks = [l] → fp l ∉ st.visited →
      parse fp uj st task
        = { st with alerts := st.alerts ++ [Alert.exc Exc.indexError],
                    visited := st.visited ++ [fp l],
                    tasks := st.tasks ++
                      [{ type := TaskType.crawl, url := l, dataRef := some r }] })
    ∧ (∀ (st : CrawlerState) (task : Task) (doc : Doc) (r : Nat) (cat : Str) (p l : Str),
      rmatch pattern1 task.url = false → rmatch pattern2 task.url = false →
      rmatch pattern3 task.url = true → rmatch pattern5 task.url = false →
      task.doc = some doc → task.dataRef = some r → st.heap.getD r none = some cat →
      doc.pagerNext = [p] → doc.vacancyLinks = [l] →
      fp (abs_url uj task.url p) ∉ st.visited → fp l ∉ st.visited →
      fp (abs_url uj task.url p) ≠ fp l →
      parse fp uj st task
        = { st with visited := st.visited ++ [fp (abs_url uj task.url p), fp l],
                    tasks := st.tasks ++
                      [{ type := TaskType.crawl, url := abs_url uj task.url p, dataRef := some r },
                       { type := TaskType.crawl, url := l, dataRef := some r }] }) := by
  constructor
  · intro st task doc r cat l h1 h2 h3 h5 hd hr hcat hn hl hmem
    have hcatne : ¬ st.heap[r]?.getD none = none := by
      rw [← List.getD_eq_getElem?_getD, hcat]; simp
    simp [parse, runRules, rules, pattern4, h1, h2, h3, h5, pagination,
          vacancies_list, vacanciesGo, add_to_queue, put_task, dictEmpty,
          add_alert, hd, hn, hl, hr, hcatne, hmem]
  · intro st task doc r cat p l h1 h2 h3 h5 hd hr hcat hn hl hmem1 hmem2 hne
    have hcatne : ¬ st.heap[r]?.getD none = none := by
      rw [← List.getD_eq_getElem?_getD, hcat]; simp
    simp [parse, runRules, rules, pattern4, h1, h2, h3, h5, pagination,
          vacancies_list, vacanciesGo, add_to_queue, put_task, dictEmpty,
          add_alert, hd, hn, hl, hr, hcatne, hmem1, hmem2, Ne.symm hne]

/-- C4 witness: the second part evaluated on concrete inputs, showing the
next-page task enqueued before the detail task. -/
theorem dispatch_runs_all_matching_rules_witness :
    parse cfp cuj w4st w4task
      = { w4st with
            visited := w4st.visited ++
              [cfp (abs_url cuj w4task.url "/page2".data), cfp "/vacancy/9".data],
            tasks := w4st.tasks ++
              [{ type := TaskType.crawl, url := abs_url cuj w4task.url "/page2".data,
                 dataRef := some 0 },
               { type := TaskType.crawl, url := "/vacancy/9".data, dataRef := some 0 }] } :=
  (dispatch_runs_all_matching_rules cfp cuj).2 w4st w4task w4doc 0 "C".data
    "/page2".data "/vacancy/9".data
    (by decide) (by decide) (by decide) (by decide) rfl rfl rfl rfl rfl
    (by decide) (by decide) (by decide)

/-- C6: the dedup guard applies only to crawl tasks and its entries
persist.  A crawl task whose fingerprint is already recorded leaves the
state exactly unchanged (dropped, not queued); a crawl task with a fresh
fingerprint records it and is queued; a parse task is always queued and
never touches the visited set; and the visited set only ever grows. -/
theorem dedup_crawl_only (fp : Str → Str) (st : CrawlerState) (task : Task) :
    (task.type = TaskType.crawl → fp task.url ∈ st.visited → add_to_queue fp st task = st)
    ∧ (task.type = TaskType.crawl → fp task.url ∉ st.visited →
        (add_to_queue fp st task).visited = st.visited ++ [fp task.url]
        ∧ ∃ t', (add_to_queue fp st task).tasks = st.tasks ++ [t']
            ∧ t'.type = TaskType.crawl ∧ t'.url = task.url)
    ∧ (task.type = TaskType.parse →
        (add_to_queue fp st task).visited = st.visited
        ∧ ∃ t', (add_to_queue fp st task).tasks = st.tasks ++ [t']
            ∧ t'.type = TaskType.parse ∧ t'.url = task.url)
    ∧ st.visited <+: (add_to_queue fp st task).visited := by
  refine ⟨?_, ?_, ?_, ?_⟩
  · intro hty hmem
    simp [add_to_queue, hty, hmem]
  · intro hty hmem
    rw [add_to_queue, if_pos hty, if_neg hmem]
    have h := put_task_spec { st with visited := st.visited ++ [fp task.url] } task
    obtain ⟨t', h1, h2, h3⟩ := h.2
    exact ⟨h.1, ⟨t', h1, h2.trans hty, h3⟩⟩
  · intro hty
    have hnc : ¬ task.type = TaskType.crawl := by rw [hty]; intro h; cases h
    rw [add_to_queue, if_neg hnc]
    have h := put_task_spec st task
    obtain ⟨t', h1, h2, h3⟩ := h.2
    exact ⟨h.1, ⟨t', h1, h2.trans hty, h3⟩⟩
  · rw [add_to_queue]
    split
    · split
      · exact List.prefix_refl _
      · have h := put_task_spec { st with visited := st.visited ++ [fp task.url] } task
        rw [h.1]
        exact List.prefix_append _ _
    · have h := put_task_spec st task
      rw [h.1]

/-- C6 witness: a duplicate seed is dropped on its second enqueue, and a
parse task leaves the visited set unchanged. -/
theorem dedup_crawl_only_witness :
    (add_to_queue cfp w6st w6seed).visited = w6st.visited ++ [cfp w6seed.url]
    ∧ add_to_queue cfp (add_to_queue cfp w6st w6seed) w6seed = add_to_queue cfp w6st w6seed
    ∧ (add_to_queue cfp w6st w6ptask).visited = w6st.visited :=
  ⟨((dedup_crawl_only cfp w6st w6seed).2.1 rfl (by decide)).1,
   (dedup_crawl_only cfp (add_to_queue cfp w6st w6seed) w6seed).1 rfl (by decide),
   ((dedup_crawl_only cfp w6st w6ptask).2.2.1 rfl).1⟩

/-- C7 counterexample: the listing handler enqueues the raw detail href
with no abs_url resolution, so a scheme-relative href is fingerprinted in
its unresolved form; enqueueing the equivalent absolute URL afterwards is
not deduplicated (both crawl tasks end up queued), refuting that the two
forms produce the same fingerprint. -/
theorem listing_enqueues_unresolved_url_cex :
    (parse cfp cuj c7st c7task).visited = ["//jobs.tut.by/vacancy/1".data]
    ∧ (parse cfp cuj c7st c7task).tasks.map (fun t => t.url)
        = ["//jobs.tut.by/vacancy/1".data]
    ∧ "//jobs.tut.by/vacancy/1".data ≠ "https://jobs.tut.by/vacancy/1".data
    ∧ (add_to_queue cfp (parse cfp cuj c7st c7task)
        { type := .crawl, url := "https://jobs.tut.by/vacancy/1".data,
          dataRef := some 0 }).tasks.length = 2 := by decide

/-- C7 (amended): the category, subcategory and pagination handlers do
resolve hrefs through abs_url before enqueueing, so their fingerprints are
taken of the resolved URL; the listing handler is the exception. -/
theorem resolve_before_fingerprint_amended (fp : Str → Str) (uj : Str → Str → Str) :
    (∀ (st : CrawlerState) (task : Task) (doc : Doc) (h : Str) (hs : List Str) (r : Nat),
      task.doc = some doc → doc.pagerNext = h :: hs → task.dataRef = some r →
      fp (abs_url uj task.url h) ∉ st.visited →
      (pagination fp uj st task).1.visited = st.visited ++ [fp (abs_url uj task.url h)]
      ∧ ∃ t', (pagination fp uj st task).1.tasks = st.tasks ++ [t']
          ∧ t'.type = TaskType.crawl ∧ t'.url = abs_url uj task.url h)
    ∧ (∀ (st : CrawlerState) (task : Task) (doc : Doc) (h : Str) (hs : List Str)
        (nm : Str) (nms : List Str) (r : Nat),
      task.doc = some doc → doc.l1cats = [⟨h :: hs, nm :: nms⟩] → task.dataRef = some r →
      fp (abs_url uj task.url h) ∉ st.visited →
      ∃ t', (level1 fp uj st task).1.tasks = st.tasks ++ [t']
          ∧ t'.type = TaskType.crawl ∧ t'.url = abs_url uj task.url h
          ∧ (level1 fp uj st task).1.visited = st.visited ++ [fp (abs_url uj task.url h)])
    ∧ (∀ (st : CrawlerState) (task : Task) (doc : Doc) (h : Str) (hs : List Str)
        (nm : Str) (nms : List Str) (r : Nat),
      task.doc = some doc → doc.l2cats = [⟨h :: hs, nm :: nms⟩] → task.dataRef = some r →
      fp (abs_url uj task.url h) ∉ st.visited →
      ∃ t', (level2 fp uj st task).1.tasks = st.tasks ++ [t']
          ∧ t'.type = TaskType.crawl ∧ t'.url = abs_url uj task.url h
          ∧ (level2 fp uj st task).1.visited = st.visited ++ [fp (abs_url uj task.url h)]) := by
  refine ⟨?_, ?_, ?_⟩
  · intro st task doc h hs r hd hn hr hmem
    rw [pagination]
    simp only [hd, hn, hr]
    exact add_to_queue_fresh fp st _ rfl hmem
  · intro st task doc h hs nm nms r hd hcats hr hmem
    rw [level1]
    simp only [hd, hcats, hr, level1Go]
    have hfr := add_to_queue_fresh fp { st with heap := st.heap.set r (some (pystrip nm)) }
      { type := .crawl, url := abs_url uj task.url h, dataRef := some r } rfl hmem
    obtain ⟨t', h1, h2, h3⟩ := hfr.2
    exact ⟨t', h1, h2, h3, hfr.1⟩
  · intro st task doc h hs nm nms r hd hcats hr hmem
    rw [level2]
    simp only [hd, hcats, hr, level2Go]
    have hfr := add_to_queue_fresh fp
      { st with heap := st.heap ++ [some (join_cats ((st.heap.getD r none).getD []) nm)] }
      { type := .crawl, url := abs_url uj task.url h, dataRef := some st.heap.length }
      rfl hmem
    obtain ⟨t', h1, h2, h3⟩ := hfr.2
    exact ⟨t', h1, h2, h3, hfr.1⟩

/-- C7 witness: the three resolving handlers evaluated on concrete
inputs. -/
theorem resolve_before_fingerprint_amended_witness :
    ((pagination cfp cuj w7st w7task).1.visited
        = w7st.visited ++ [cfp (abs_url cuj w7task.url "/page3".data)]
      ∧ ∃ t', (pagination cfp cuj w7st w7task).1.tasks = w7st.tasks ++ [t']
          ∧ t'.type = TaskType.crawl ∧ t'.url = abs_url cuj w7task.url "/page3".data)
    ∧ (∃ t', (level1 cfp cuj w7st w7task).1.tasks = w7st.tasks ++ [t']
          ∧ t'.type = TaskType.crawl ∧ t'.url = abs_url cuj w7task.url "/catalog/x".data
          ∧ (level1 cfp cuj w7st w7task).1.visited
              = w7st.visited ++ [cfp (abs_url cuj w7task.url "/catalog/x".data)])
    ∧ (∃ t', (level2 cfp cuj w7st w7task).1.tasks = w7st.tasks ++ [t']
          ∧ t'.type = TaskType.crawl ∧ t'.url = abs_url cuj w7task.url "/catalog/x/y".data
          ∧ (level2 cfp cuj w7st w7task).1.visited
              = w7st.visited ++ [cfp (abs_url cuj w7task.url "/catalog/x/y".data)]) :=
  ⟨(resolve_before_fingerprint_amended cfp cuj).1 w7st w7task w7doc
     "/page3".data [] 0 rfl rfl rfl (by decide),
   (resolve_before_fingerprint_amended cfp cuj).2.1 w7st w7task w7doc
     "/catalog/x".data [] "X".data [] 0 rfl rfl rfl (by decide),
   (resolve_before_fingerprint_amended cfp cuj).2.2 w7st w7task w7doc
     "/catalog/x/y".data [] "Y".data [] 0 rfl rfl rfl (by decide)⟩

/-- C8: on a vacancy detail task, extraction is all or nothing.  If any
required query (title, company name, the info table, employment type,
work hours) is empty, no record is appended and alerts are recorded for
that page (the IndexError, plus the no-rules message since the only
matching rule raised); otherwise exactly one record built from the
queries is appended and nothing else changes. -/
theorem extractor_required_all_or_nothing (fp : Str → Str) (uj : Str → Str → Str)
    (st : CrawlerState) (task : Task) (doc : Doc)
    (h1 : rmatch pattern1 task.url = false) (h2 : rmatch pattern2 task.url = false)
    (h3 : rmatch pattern3 task.url = false) (h5 : rmatch pattern5 task.url = true)
    (hd : task.doc = some doc) :
    ((doc.vacancyTitle = [] ∨ doc.companyname = [] ∨ doc.topInfo = [] ∨
        doc.employmentType = [] ∨ doc.workHours = []) →
      parse fp uj st task
        = { st with alerts := st.alerts ++ [Alert.exc Exc.indexError, Alert.noRules task.url] })
    ∧ (∀ t ts comp cs s0 tis et ets wh whs,
        doc.vacancyTitle = t :: ts → doc.companyname = comp :: cs →
        doc.topInfo = s0 :: tis → doc.employmentType = et :: ets →
        doc.workHours = wh :: whs →
        parse fp uj st task
          = { st with vacancies := st.vacancies ++
              [{ title := pystrip t, company := pystrip comp, salary := pystrip s0,
                 location := pystrip (pyjoin " ".data ((doc.topInfo.drop 1).dropLast)),
                 experience := pystrip (doc.topInfo.getLast?.getD []),
                 skills := pyjoin " |||| ".data doc.skills,
                 employment_type := et, workhours := wh,
                 category := get_category st task }] }) := by
  constructor
  · intro hbad
    have hex := extractor_fail fp uj st task doc hd hbad
    simp [parse, runRules, rules, pattern4, h1, h2, h3, h5, hex, add_alert,
          List.append_assoc]
  · intro t ts comp cs s0 tis et ets wh whs ht hc hti he hw
    simp [parse, runRules, rules, pattern4, h1, h2, h3, h5, extractor, hd,
          ht, hc, hti, he, hw, add_vacancy]

/-- C8 witness: the failing and the succeeding branches evaluated on
concrete detail pages. -/
theorem extractor_required_all_or_nothing_witness :
    parse cfp cuj w8st w8badtask
      = { w8st with alerts := w8st.alerts ++
          [Alert.exc Exc.indexError, Alert.noRules w8badtask.url] }
    ∧ parse cfp cuj w8st w8goodtask
      = { w8st with vacancies := w8st.vacancies ++
          [{ title := pystrip "T".data, company := pystrip "Co".data,
             salary := pystrip "s".data,
             location := pystrip (pyjoin " ".data ((w8gooddoc.topInfo.drop 1).dropLast)),
             experience := pystrip (w8gooddoc.topInfo.getLast?.getD []),
             skills := pyjoin " |||| ".data w8gooddoc.skills,
             employment_type := "ft".data, workhours := "8h".data,
             category := get_category w8st w8goodtask }] } :=
  ⟨(extractor_required_all_or_nothing cfp cuj w8st w8badtask w8baddoc
      (by decide) (by decide) (by decide) (by decide) rfl).1 (Or.inl rfl),
   (extractor_required_all_or_nothing cfp cuj w8st w8goodtask w8gooddoc
      (by decide) (by decide) (by decide) (by decide) rfl).2
     "T".data [] "Co".data [] "s".data ["loc".data, "exp".data]
     "ft".data [] "8h".data [] rfl rfl rfl rfl rfl⟩

/-- C9: the dedup check-and-insert is not one atomic operation.  Under the
interleaving in which both threads evaluate the membership test before
either inserts, both observe the URL as new and both enqueue it: the final
queue holds the task twice.  This contradicts the claimed atomicity (no
two concurrent callers may both succeed for the same URL). -/
theorem dedup_check_insert_race :
    runSched "u".data "u".data [true, false, true, true, false, false]
        (Pc.checkMembership, Pc.checkMembership, {})
      = (Pc.finished, Pc.finished,
         { visited := ["u".data], queued := ["u".data, "u".data] }) := by decide


end Crawler
